import Mathlib

/-!  Shallow embedding of the UTracker Steam announcement watcher
     (src/index.ts): the two storage backends, the BBCode → Markdown
     transcoder `formatSteamText`, the image resolution of
     `sendDiscordNotification`, and the per-item poll cycle
     `checkUpdates`.  -/

/-! ## Markup transcoder (`formatSteamText`, src/index.ts lines 83-124)

Texts are embedded as `List Char` (JavaScript strings, read as sequences
of characters).  Each `.replace(regex, rep)` call of the source becomes a
left-to-right scan: at each position the engine either starts a match
(patterns are literal tags, optionally followed by a lazy `(.*?)` capture
that runs to the earliest occurrence of the closing literal) and resumes
after the replaced span, or moves one character forward.  The scans carry
a fuel argument (initialised to the length of the input, which bounds the
number of scan steps) so that every definition is structurally recursive
and kernel-computable. -/

/-- Character of the double-quote, `"`. -/
def quoteD : Char := Char.ofNat 34

/-- Character of the single-quote. -/
def quoteS : Char := Char.ofNat 39

/-- The whitespace characters trimmed by JavaScript `String.prototype.trim`
(ASCII part, the only ones the claims exercise). -/
def isWs (c : Char) : Bool :=
  c = ' ' || c = '\t' || c = '\n' || c = '\r' || c = '\x0b' || c = '\x0c'

/-- Case-sensitive character comparison (regexes without the `i` flag). -/
def eqCS (a b : Char) : Bool := a == b

/-- Case-insensitive character comparison (regexes with the `i` flag). -/
def eqCI (a b : Char) : Bool := a.toLower == b.toLower

/-- Does `s` start with the literal pattern, under comparison `eqc`? -/
def startsWithG (eqc : Char → Char → Bool) : List Char → List Char → Bool
  | [], _ => true
  | _ :: _, [] => false
  | p :: ps, c :: cs => eqc p c && startsWithG eqc ps cs

/-- Split `s` at the first occurrence of the literal `pat`:
returns the part before the occurrence and the part after it.
This is the semantics of a lazy `(.*?)` capture that must be followed by
the literal `pat`. -/
def splitOnFirst (eqc : Char → Char → Bool) (pat : List Char) :
    List Char → Option (List Char × List Char)
  | [] => none
  | c :: rest =>
    if startsWithG eqc pat (c :: rest) then some ([], (c :: rest).drop pat.length)
    else
      match splitOnFirst eqc pat rest with
      | some (pre, post) => some (c :: pre, post)
      | none => none

/-- Global replacement of the literal `pat` by `rep`
(e.g. `.replace(/\[list\]/gi, '')`, `.replace(/\[\*\]/g, '• ')`). -/
def replaceAllF (eqc : Char → Char → Bool) (pat rep : List Char) :
    Nat → List Char → List Char
  | 0, s => s
  | _ + 1, [] => []
  | fuel + 1, c :: rest =>
    if startsWithG eqc pat (c :: rest) then
      rep ++ replaceAllF eqc pat rep fuel ((c :: rest).drop pat.length)
    else
      c :: replaceAllF eqc pat rep fuel rest

/-- Global replacement of `op (.*?) cl` by `wrap` applied to the capture
(e.g. `.replace(/\[b\](.*?)\[\/b\]/gs, '**$1**')`).  The `s` flag is
implicit: the capture may span newlines.  When the opening tag matches but
no closing tag follows anywhere, the regex has no match starting here and
the scan moves one character forward, exactly like the JS engine. -/
def replacePairF (eqc : Char → Char → Bool) (op cl : List Char)
    (wrap : List Char → List Char) : Nat → List Char → List Char
  | 0, s => s
  | _ + 1, [] => []
  | fuel + 1, c :: rest =>
    if startsWithG eqc op (c :: rest) then
      match splitOnFirst eqc cl ((c :: rest).drop op.length) with
      | some (pre, post) => wrap pre ++ replacePairF eqc op cl wrap fuel post
      | none => c :: replacePairF eqc op cl wrap fuel rest
    else
      c :: replacePairF eqc op cl wrap fuel rest

/-- Scan for the end of the lazy URL capture of
`\[url=["']?(.*?)["']?\]`: the earliest position closing the capture,
preferring (for a fixed capture) to consume an optional quote before the
`]`.  Returns the captured URL and the remainder after the `]`. -/
def urlScan : List Char → Option (List Char × List Char)
  | [] => none
  | c :: rest =>
    if (c = quoteD ∨ c = quoteS) ∧ rest.head? = some ']' then some ([], rest.tail)
    else if c = ']' then some ([], rest)
    else
      match urlScan rest with
      | some (pre, post) => some (c :: pre, post)
      | none => none

/-- Parse the attribute part after `[url=`: an optional opening quote
(consumed greedily) followed by the lazy capture. -/
def urlParse : List Char → Option (List Char × List Char)
  | [] => none
  | c :: rest => if c = quoteD ∨ c = quoteS then urlScan rest else urlScan (c :: rest)

/-- The literal opening of the URL tag. -/
def urlOpen : List Char := "[url=".toList

/-- The literal closing of the URL tag. -/
def urlClose : List Char := "[/url]".toList

/-- `.replace(/\[url=["']?(.*?)["']?\](.*?)\[\/url\]/gs, '[$2]($1)')`. -/
def replaceUrlF : Nat → List Char → List Char
  | 0, s => s
  | _ + 1, [] => []
  | fuel + 1, c :: rest =>
    if startsWithG eqCS urlOpen (c :: rest) then
      match urlParse (rest.drop 4) with
      | some (url, rest2) =>
        match splitOnFirst eqCS urlClose rest2 with
        | some (label, post) =>
          ['['] ++ label ++ [']', '('] ++ url ++ [')'] ++ replaceUrlF fuel post
        | none => c :: replaceUrlF fuel rest
      | none => c :: replaceUrlF fuel rest
    else
      c :: replaceUrlF fuel rest

/-- `.replace(/\n{3,}/g, '\n\n')`: each maximal run of three or more
newlines collapses to exactly two. -/
def collapseNlF : Nat → List Char → List Char
  | 0, s => s
  | _ + 1, [] => []
  | fuel + 1, c :: rest =>
    if c = '\n' then
      match rest with
      | '\n' :: '\n' :: _ =>
        '\n' :: '\n' :: collapseNlF fuel (rest.dropWhile (fun x => x = '\n'))
      | _ => c :: collapseNlF fuel rest
    else
      c :: collapseNlF fuel rest

/-- `.trim()`: strip leading and trailing whitespace. -/
def trimBoth (s : List Char) : List Char :=
  ((s.dropWhile isWs).reverse.dropWhile isWs).reverse

/-- Run a literal global replacement with full fuel. -/
def runAll (eqc : Char → Char → Bool) (pat rep : String) (s : List Char) : List Char :=
  replaceAllF eqc pat.toList rep.toList s.length s

/-- Run a paired-tag global replacement with full fuel. -/
def runPair (eqc : Char → Char → Bool) (op cl : String)
    (wrap : List Char → List Char) (s : List Char) : List Char :=
  replacePairF eqc op.toList cl.toList wrap s.length s

/-- Run the URL replacement with full fuel. -/
def runUrl (s : List Char) : List Char := replaceUrlF s.length s

/-- Run the newline collapse with full fuel. -/
def collapseNl (s : List Char) : List Char := collapseNlF s.length s

/-- Replacement template `left ++ capture ++ right`. -/
def wrapWith (left right : String) : List Char → List Char :=
  fun cap => left.toList ++ cap ++ right.toList

/-- The rewrite pipeline of `formatSteamText` before the length cap:
the `.replace` chain of src/index.ts lines 84-117, in source order. -/
def fmtPipeline (text : List Char) : List Char :=
  trimBoth <|
  collapseNl <|
  runPair eqCS "[previewyoutube=" "][/previewyoutube]" (fun _ => []) <|
  runAll eqCI "[p]" "" <|
  runAll eqCI "[/p]" "\n" <|
  runPair eqCS "[img]" "[/img]" (fun _ => []) <|
  runPair eqCS "[quote]" "[/quote]" (wrapWith "> " "\n") <|
  runPair eqCS "[code]" "[/code]" (wrapWith "```\n" "\n```") <|
  runPair eqCS "[spoiler]" "[/spoiler]" (wrapWith "||" "||") <|
  runAll eqCS "[/]" "" <|
  runAll eqCS "[/*]" "" <|
  runAll eqCS "[*]" "• " <|
  runAll eqCI "[/list]" "" <|
  runAll eqCI "[list]" "" <|
  runUrl <|
  runPair eqCS "[strike]" "[/strike]" (wrapWith "~~" "~~") <|
  runPair eqCS "[u]" "[/u]" (wrapWith "__" "__") <|
  runPair eqCS "[i]" "[/i]" (wrapWith "*" "*") <|
  runPair eqCS "[b]" "[/b]" (wrapWith "**" "**") <|
  runPair eqCS "[h3]" "[/h3]" (wrapWith "### " "\n") <|
  runPair eqCS "[h2]" "[/h2]" (wrapWith "## " "\n") <|
  runPair eqCS "[h1]" "[/h1]" (wrapWith "# " "\n") text

/-- The continuation suffix appended after truncation
(src/index.ts line 120). -/
def STEAM_SUFFIX : List Char := "...\n\n[Read full patch notes on Steam]".toList

/-- `formatSteamText` (src/index.ts lines 83-124): the rewrite pipeline,
then, when the result exceeds 3500 characters, truncation to the first
3500 characters with the continuation suffix appended. -/
def formatSteamText (text : List Char) : List Char :=
  let formatted := fmtPipeline text
  if formatted.length > 3500 then formatted.take 3500 ++ STEAM_SUFFIX
  else formatted

/-! ## State store (`getLastGid` / `setLastGid`, src/index.ts lines 52-81)

The local `storage.json` document is embedded as a `Doc`: absent file,
present-but-unparsable file, or a parsed key → value mapping (a JSON
object, embedded as an association list in insertion order).  The Redis
backend is embedded as the key → value mapping held by the server.  -/

/-- The `storage.json` document of the local-file backend. -/
inductive Doc
  | missing
  | corrupt
  | parsed (m : List (String × String))
deriving DecidableEq

/-- The mapping `JSON.parse` yields in `setLastGid`: a missing or
throwing parse leaves `data = {}`. -/
def docData : Doc → List (String × String)
  | .parsed m => m
  | _ => []

/-- JavaScript object property write `data[k] = v`: overwrite the
existing key in place, or append a new one. -/
def setKV (k v : String) : List (String × String) → List (String × String)
  | [] => [(k, v)]
  | (k', v') :: rest => if k' = k then (k, v) :: rest else (k', v') :: setKV k v rest

/-- The selected storage backend with its current contents
(`redisClient` set at startup iff `REDIS_URL` is configured). -/
inductive Backend
  | redis (m : List (String × String))
  | file (d : Doc)
deriving DecidableEq

/-- The Redis key `steam_watcher:<appId>` (src/index.ts lines 54, 70). -/
def redisKey (appId : String) : String := "steam_watcher:" ++ appId

/-- `getLastGid` (src/index.ts lines 52-66).  Redis: `GET` of the
namespaced key.  File: missing file → `null`; `JSON.parse` throwing →
`null` (the `catch`); otherwise `data[appId] || null`, where an
empty-string (falsy) value also yields `null`. -/
def getLastGid : Backend → String → Option String
  | .redis m, appId => m.lookup (redisKey appId)
  | .file .missing, _ => none
  | .file .corrupt, _ => none
  | .file (.parsed data), appId =>
    match data.lookup appId with
    | some v => if v = "" then none else some v
    | none => none

/-- `setLastGid` (src/index.ts lines 68-81).  Redis: `SET` of the
namespaced key.  File: parse the whole document (treating a missing or
throwing parse as `{}`), mutate the one key, rewrite the document. -/
def setLastGid : Backend → String → String → Backend
  | .redis m, appId, gid => .redis (setKV (redisKey appId) gid m)
  | .file d, appId, gid => .file (.parsed (setKV appId gid (docData d)))

/-- A sequence of `setLastGid` calls, in order. -/
def applySets (st : Backend) : List (String × String) → Backend
  | [] => st
  | (k, v) :: rest => applySets (setLastGid st k v) rest

/-! ## Feed entries and the notification image
(`SteamEvent`, `sendDiscordNotification`, src/index.ts lines 28-46, 148-191) -/

/-- The `jsondata` metadata blob after `JSON.parse`: either the parse
throws (`corrupt`), or it yields the two optional image lists.  A field
that is absent or fails the `Array.isArray` test is `none`. -/
inductive JsonBlob
  | corrupt
  | parsed (localized_title_image : Option (List String))
      (localized_capsule_image : Option (List String))
deriving DecidableEq

/-- `announcement_body` of a Steam event. -/
structure AnnouncementBody where
  body : String
  tags : List String
  clanid : Option String
deriving DecidableEq

/-- A Steam event (the `SteamEvent` interface, src/index.ts lines 28-41). -/
structure SteamEvent where
  gid : String
  event_name : String
  event_type : Int
  appid : Int
  rtime32_start_time : Int
  clan_steamid : Option String
  announcement_body : AnnouncementBody
  jsondata : Option JsonBlob
deriving DecidableEq

/-- A feed response (the `SteamApiResponse` interface,
src/index.ts lines 43-46). -/
structure SteamApiResponse where
  success : Int
  events : List SteamEvent
deriving DecidableEq

/-- `(Array.isArray(xs) && xs[0])` followed by a truthiness test: the
first element of the list when the field is a list whose first element is
a non-empty string; falsy otherwise (absent field, empty list, or
empty-string first element). -/
def imageFileOf : Option (List String) → Option String
  | some (f :: _) => if f = "" then none else some f
  | _ => none

/-- The fixed CDN template of src/index.ts line 169. -/
def clanImageUrl (clanId imageFile : String) : String :=
  "https://clan.fastly.steamstatic.com/images/" ++ clanId ++ "/" ++ imageFile

/-- The image resolution of `sendDiscordNotification`
(src/index.ts lines 154-174): requires a truthy `jsondata` and a truthy
`announcement_body.clanid`; a throwing `JSON.parse` is caught and yields
no image; otherwise `localized_title_image` is tried before
`localized_capsule_image` under the truthiness rule of `imageFileOf`. -/
def resolveImage (event : SteamEvent) : Option String :=
  match event.announcement_body.clanid with
  | none => none
  | some clanId =>
    if clanId = "" then none
    else
      match event.jsondata with
      | none => none
      | some .corrupt => none
      | some (.parsed titleImages capsuleImages) =>
        match imageFileOf titleImages with
        | some f => some (clanImageUrl clanId f)
        | none =>
          match imageFileOf capsuleImages with
          | some f => some (clanImageUrl clanId f)
          | none => none

/-- Modelled from the spec: the image-attachment rule exactly as worded —
an image is attached iff the owning-group identifier and a parsable
metadata blob are present and the title-image list or the capsule-image
list is non-empty, the title-image list taking precedence, the URL built
from the CDN template, the group identifier and the first element of the
chosen list.  Stated only to compare with `resolveImage`, the function
the source implements. -/
def specClaimedImage (event : SteamEvent) : Option String :=
  match event.announcement_body.clanid, event.jsondata with
  | some clanId, some (.parsed titleImages capsuleImages) =>
    (match titleImages with
     | some (f :: _) => some (clanImageUrl clanId f)
     | _ =>
       match capsuleImages with
       | some (f :: _) => some (clanImageUrl clanId f)
       | _ => none)
  | _, _ => none

/-! ## The poll cycle (`checkUpdates`, src/index.ts lines 126-146)

One tracked item's processing is a step over the store: fetch the feed,
on `success === 1` with a first event compare its `gid` against
`getLastGid`, and when they differ send the notification and then persist
the `gid`.  The parts of the world that can raise — the fetch/JSON parse,
the store read, the Discord send, the store write — are described by an
`ItemEnv`; a raise at any point is caught by the per-item
`try`/`catch`, which logs the item's `appId` and leaves the loop
running. -/

/-- The behaviour of the external world for one item on one cycle. -/
structure ItemEnv where
  fetch : Except Unit SteamApiResponse
  getThrows : Bool
  emitThrows : Bool
  setThrows : Bool

/-- An environment in which nothing raises. -/
def cleanEnv (r : SteamApiResponse) : ItemEnv :=
  { fetch := .ok r, getThrows := false, emitThrows := false, setThrows := false }

/-- What one item's processing did: whether `sendDiscordNotification`
was invoked, the `gid` for which the send completed without raising, and
the `appId` logged by the `catch` when something raised. -/
structure Outcome where
  attempted : Bool
  sent : Option String
  logged : Option String
deriving DecidableEq

/-- The loop body of `checkUpdates` for one `appId`
(src/index.ts lines 128-144), returning the store after the item and the
item's `Outcome`. -/
def processItem (env : ItemEnv) (st : Backend) (appId : String) : Backend × Outcome :=
  match env.fetch with
  | .error _ => (st, ⟨false, none, some appId⟩)
  | .ok data =>
    if data.success = 1 then
      match data.events.head? with
      | some event =>
        if env.getThrows then (st, ⟨false, none, some appId⟩)
        else if some event.gid ≠ getLastGid st appId then
          if env.emitThrows then (st, ⟨true, none, some appId⟩)
          else if env.setThrows then (st, ⟨true, some event.gid, some appId⟩)
          else (setLastGid st appId event.gid, ⟨true, some event.gid, none⟩)
        else (st, ⟨false, none, none⟩)
      | none => (st, ⟨false, none, none⟩)
    else (st, ⟨false, none, none⟩)

/-- `checkUpdates` (src/index.ts lines 126-146): the items of `APP_IDS`
in configured order, each through `processItem`, the store threading
through; the per-item outcomes are collected in order. -/
def checkUpdates (envs : String → ItemEnv) (st : Backend) :
    List String → Backend × List (String × Outcome)
  | [] => (st, [])
  | appId :: rest =>
    let r := processItem (envs appId) st appId
    let rr := checkUpdates envs r.1 rest
    (rr.1, (appId, r.2) :: rr.2)

/-! ## Concrete fixtures used by witnesses and counterexamples -/

/-- A minimal event with identifier `"X"`. -/
def evX : SteamEvent :=
  { gid := "X", event_name := "Update", event_type := 13, appid := 440
    rtime32_start_time := 1700000000, clan_steamid := none
    announcement_body := { body := "", tags := [], clanid := none }
    jsondata := none }

/-- The event `evX` with identifier `"Y"`. -/
def evY : SteamEvent := { evX with gid := "Y" }

/-- The event `evX` with the empty string as identifier. -/
def evEmpty : SteamEvent := { evX with gid := "" }

/-- An event whose metadata has an empty-string first title image and a
non-empty capsule image. -/
def evTitleBlank : SteamEvent :=
  { evX with
    announcement_body := { body := "", tags := [], clanid := some "123" }
    jsondata := some (.parsed (some [""]) (some ["cap.png"])) }

/-- An event with an empty-string owning-group identifier and a non-empty
title-image list. -/
def evClanBlank : SteamEvent :=
  { evX with
    announcement_body := { body := "", tags := [], clanid := some "" }
    jsondata := some (.parsed (some ["t.png"]) none) }

/-- An event with both image lists non-empty and truthy. -/
def evBothImages : SteamEvent :=
  { evX with
    announcement_body := { body := "", tags := [], clanid := some "123" }
    jsondata := some (.parsed (some ["t.png"]) (some ["cap.png"])) }

/-- An event with only the capsule-image list. -/
def evCapsuleOnly : SteamEvent :=
  { evX with
    announcement_body := { body := "", tags := [], clanid := some "123" }
    jsondata := some (.parsed none (some ["cap.png"])) }

/-- An environment whose fetch raises. -/
def failEnv : ItemEnv :=
  { fetch := .error (), getThrows := false, emitThrows := false, setThrows := false }

/-- An environment map: the item `"bad"` raises on fetch, every other
item cleanly yields `evX`. -/
def envsBad : String → ItemEnv :=
  fun a => if a = "bad" then failEnv else cleanEnv ⟨1, [evX]⟩

/-! ## Lemmas: a scan whose pattern head never occurs is the identity -/

theorem replaceAllF_id (eqc : Char → Char → Bool) (p : Char) (ps rep : List Char)
    (fuel : Nat) (s : List Char) (h : ∀ c ∈ s, eqc p c = false)
    (hf : s.length ≤ fuel) : replaceAllF eqc (p :: ps) rep fuel s = s := by
  induction fuel generalizing s with
  | zero => rfl
  | succ n ih =>
    cases s with
    | nil => rfl
    | cons c rest =>
      have hc : eqc p c = false := h c (List.mem_cons_self c rest)
      have ht : replaceAllF eqc (p :: ps) rep n rest = rest :=
        ih rest (fun x hx => h x (List.mem_cons_of_mem _ hx))
          (Nat.le_of_succ_le_succ (by simpa using hf))
      simp [replaceAllF, startsWithG, hc, ht]

theorem replacePairF_id (eqc : Char → Char → Bool) (p : Char) (ps cl : List Char)
    (wrap : List Char → List Char) (fuel : Nat) (s : List Char)
    (h : ∀ c ∈ s, eqc p c = false) (hf : s.length ≤ fuel) :
    replacePairF eqc (p :: ps) cl wrap fuel s = s := by
  induction fuel generalizing s with
  | zero => rfl
  | succ n ih =>
    cases s with
    | nil => rfl
    | cons c rest =>
      have hc : eqc p c = false := h c (List.mem_cons_self c rest)
      have ht : replacePairF eqc (p :: ps) cl wrap n rest = rest :=
        ih rest (fun x hx => h x (List.mem_cons_of_mem _ hx))
          (Nat.le_of_succ_le_succ (by simpa using hf))
      simp [replacePairF, startsWithG, hc, ht]

theorem urlOpen_eq : urlOpen = '[' :: ['u', 'r', 'l', '='] := rfl

theorem replaceUrlF_id (fuel : Nat) (s : List Char)
    (h : ∀ c ∈ s, eqCS '[' c = false) (hf : s.length ≤ fuel) :
    replaceUrlF fuel s = s := by
  induction fuel generalizing s with
  | zero => rfl
  | succ n ih =>
    cases s with
    | nil => rfl
    | cons c rest =>
      have hc : eqCS '[' c = false := h c (List.mem_cons_self c rest)
      have ht : replaceUrlF n rest = rest :=
        ih rest (fun x hx => h x (List.mem_cons_of_mem _ hx))
          (Nat.le_of_succ_le_succ (by simpa using hf))
      simp [replaceUrlF, urlOpen_eq, startsWithG, hc, ht]

theorem collapseNlF_id (fuel : Nat) (s : List Char)
    (h : ∀ c ∈ s, c ≠ '\n') (hf : s.length ≤ fuel) :
    collapseNlF fuel s = s := by
  induction fuel generalizing s with
  | zero => rfl
  | succ n ih =>
    cases s with
    | nil => rfl
    | cons c rest =>
      have hc : ¬(c = '\n') := h c (List.mem_cons_self c rest)
      have ht : collapseNlF n rest = rest :=
        ih rest (fun x hx => h x (List.mem_cons_of_mem _ hx))
          (Nat.le_of_succ_le_succ (by simpa using hf))
      simp [collapseNlF, hc, ht]

theorem dropWhile_id_of (p : Char → Bool) (s : List Char)
    (h : ∀ c ∈ s, p c = false) : s.dropWhile p = s := by
  cases s with
  | nil => rfl
  | cons c rest => simp [List.dropWhile_cons, h c (List.mem_cons_self c rest)]

theorem trimBoth_id (s : List Char) (h : ∀ c ∈ s, isWs c = false) :
    trimBoth s = s := by
  unfold trimBoth
  rw [dropWhile_id_of _ _ h,
    dropWhile_id_of _ _ (fun c hc => h c (List.mem_reverse.mp hc)),
    List.reverse_reverse]

theorem runAll_id (eqc : Char → Char → Bool) (pat rep : String) (p : Char)
    (ps : List Char) (hp : pat.toList = p :: ps) (s : List Char)
    (h : ∀ c ∈ s, eqc p c = false) : runAll eqc pat rep s = s := by
  unfold runAll
  rw [hp]
  exact replaceAllF_id eqc p ps rep.toList s.length s h (Nat.le_refl _)

theorem runPair_id (eqc : Char → Char → Bool) (op cl : String)
    (wrap : List Char → List Char) (p : Char) (ps : List Char)
    (hp : op.toList = p :: ps) (s : List Char)
    (h : ∀ c ∈ s, eqc p c = false) : runPair eqc op cl wrap s = s := by
  unfold runPair
  rw [hp]
  exact replacePairF_id eqc p ps cl.toList wrap s.length s h (Nat.le_refl _)

theorem runUrl_id (s : List Char) (h : ∀ c ∈ s, eqCS '[' c = false) :
    runUrl s = s :=
  replaceUrlF_id s.length s h (Nat.le_refl _)

theorem collapseNl_id (s : List Char) (h : ∀ c ∈ s, c ≠ '\n') :
    collapseNl s = s :=
  collapseNlF_id s.length s h (Nat.le_refl _)

theorem fmtPipeline_id (s : List Char)
    (hS : ∀ c ∈ s, eqCS '[' c = false)
    (hI : ∀ c ∈ s, eqCI '[' c = false)
    (hW : ∀ c ∈ s, isWs c = false) :
    fmtPipeline s = s := by
  have hN : ∀ c ∈ s, c ≠ '\n' := by
    intro c hc he
    subst he
    simpa [isWs] using hW _ hc
  unfold fmtPipeline
  rw [runPair_id eqCS "[h1]" "[/h1]" (wrapWith "# " "\n") '[' _ rfl s hS,
    runPair_id eqCS "[h2]" "[/h2]" (wrapWith "## " "\n") '[' _ rfl s hS,
    runPair_id eqCS "[h3]" "[/h3]" (wrapWith "### " "\n") '[' _ rfl s hS,
    runPair_id eqCS "[b]" "[/b]" (wrapWith "**" "**") '[' _ rfl s hS,
    runPair_id eqCS "[i]" "[/i]" (wrapWith "*" "*") '[' _ rfl s hS,
    runPair_id eqCS "[u]" "[/u]" (wrapWith "__" "__") '[' _ rfl s hS,
    runPair_id eqCS "[strike]" "[/strike]" (wrapWith "~~" "~~") '[' _ rfl s hS,
    runUrl_id s hS,
    runAll_id eqCI "[list]" "" '[' _ rfl s hI,
    runAll_id eqCI "[/list]" "" '[' _ rfl s hI,
    runAll_id eqCS "[*]" "• " '[' _ rfl s hS,
    runAll_id eqCS "[/*]" "" '[' _ rfl s hS,
    runAll_id eqCS "[/]" "" '[' _ rfl s hS,
    runPair_id eqCS "[spoiler]" "[/spoiler]" (wrapWith "||" "||") '[' _ rfl s hS,
    runPair_id eqCS "[code]" "[/code]" (wrapWith "```\n" "\n```") '[' _ rfl s hS,
    runPair_id eqCS "[quote]" "[/quote]" (wrapWith "> " "\n") '[' _ rfl s hS,
    runPair_id eqCS "[img]" "[/img]" (fun _ => []) '[' _ rfl s hS,
    runAll_id eqCI "[/p]" "\n" '[' _ rfl s hI,
    runAll_id eqCI "[p]" "" '[' _ rfl s hI,
    runPair_id eqCS "[previewyoutube=" "][/previewyoutube]" (fun _ => []) '[' _ rfl s hS,
    collapseNl_id s hN,
    trimBoth_id s hW]

theorem fmtPipeline_replicate_a (n : Nat) :
    fmtPipeline (List.replicate n 'a') = List.replicate n 'a' := by
  apply fmtPipeline_id <;>
    · intro c hc
      rw [List.eq_of_mem_replicate hc]
      decide

/-! ## Lemmas about the state store -/

theorem lookup_setKV_self (k v : String) (m : List (String × String)) :
    (setKV k v m).lookup k = some v := by
  induction m with
  | nil => simp [setKV, List.lookup]
  | cons kv rest ih =>
    obtain ⟨a, b⟩ := kv
    by_cases h : a = k
    · subst h
      simp [setKV, List.lookup]
    · have hb : (k == a) = false := beq_eq_false_iff_ne.mpr (Ne.symm h)
      simp [setKV, h, List.lookup, hb, ih]

theorem lookup_setKV_other (k k' v : String) (m : List (String × String))
    (h : k' ≠ k) : (setKV k v m).lookup k' = m.lookup k' := by
  have hb : (k' == k) = false := beq_eq_false_iff_ne.mpr h
  induction m with
  | nil => simp [setKV, List.lookup, hb]
  | cons kv rest ih =>
    obtain ⟨a, b⟩ := kv
    by_cases ha : a = k
    · subst ha
      simp [setKV, List.lookup, hb]
    · simp [setKV, ha, List.lookup, ih]

theorem redisKey_inj {a b : String} (h : redisKey a = redisKey b) : a = b := by
  have hd : "steam_watcher:".data ++ a.data = "steam_watcher:".data ++ b.data := by
    have h2 := congrArg String.data h
    simpa [redisKey, String.data_append] using h2
  have h3 : a.data = b.data := List.append_cancel_left hd
  cases a
  cases b
  exact congrArg String.mk h3

theorem getLastGid_set_self (st : Backend) (k v : String) (hv : v ≠ "") :
    getLastGid (setLastGid st k v) k = some v := by
  cases st with
  | redis m => simp [getLastGid, setLastGid, lookup_setKV_self]
  | file d => simp [getLastGid, setLastGid, lookup_setKV_self, hv]

theorem getLastGid_set_self_redis (m : List (String × String)) (k v : String) :
    getLastGid (setLastGid (.redis m) k v) k = some v := by
  simp [getLastGid, setLastGid, lookup_setKV_self]

theorem getLastGid_set_other (st : Backend) (k k' v : String) (h : k' ≠ k) :
    getLastGid (setLastGid st k v) k' = getLastGid st k' := by
  cases st with
  | redis m =>
    have hk : redisKey k' ≠ redisKey k := fun he => h (redisKey_inj he)
    simp [getLastGid, setLastGid, lookup_setKV_other _ _ _ _ hk]
  | file d =>
    cases d <;> simp [getLastGid, setLastGid, docData, lookup_setKV_other _ _ _ _ h]

/-! ## Lemmas about the per-item step -/

theorem processItem_clean_new (st : Backend) (appId : String) (ev : SteamEvent)
    (hnew : some ev.gid ≠ getLastGid st appId) :
    processItem (cleanEnv ⟨1, [ev]⟩) st appId =
      (setLastGid st appId ev.gid, ⟨true, some ev.gid, none⟩) := by
  simp [processItem, cleanEnv, hnew]

theorem processItem_clean_old (st : Backend) (appId : String) (ev : SteamEvent)
    (hold : some ev.gid = getLastGid st appId) :
    processItem (cleanEnv ⟨1, [ev]⟩) st appId = (st, ⟨false, none, none⟩) := by
  simp [processItem, cleanEnv, hold]

theorem processItem_logged (env : ItemEnv) (st : Backend) (a : String)
    (h : (processItem env st a).2.logged ≠ none) :
    (processItem env st a).2.logged = some a ∧ (processItem env st a).1 = st := by
  obtain ⟨f, gT, eT, sT⟩ := env
  cases f with
  | error e => simp [processItem]
  | ok data =>
    by_cases h1 : data.success = 1
    · cases he : data.events.head? with
      | none => simp [processItem, h1, he] at h
      | some ev =>
        cases gT with
        | true => simp [processItem, h1, he]
        | false =>
          by_cases h2 : some ev.gid ≠ getLastGid st a
          · cases eT with
            | true => simp [processItem, h1, he, h2]
            | false =>
              cases sT with
              | true => simp [processItem, h1, he, h2]
              | false => simp [processItem, h1, he, h2] at h
          · simp [processItem, h1, he, h2] at h
    · simp [processItem, h1] at h

theorem checkUpdates_append (envs : String → ItemEnv) (st : Backend)
    (xs ys : List String) :
    checkUpdates envs st (xs ++ ys) =
      ((checkUpdates envs (checkUpdates envs st xs).1 ys).1,
       (checkUpdates envs st xs).2 ++ (checkUpdates envs (checkUpdates envs st xs).1 ys).2) := by
  induction xs generalizing st with
  | nil => simp [checkUpdates]
  | cons a rest ih => simp [checkUpdates, ih]

theorem applySets_other (st : Backend) (ops : List (String × String)) (k : String)
    (hk : k ∉ ops.map Prod.fst) :
    getLastGid (applySets st ops) k = getLastGid st k := by
  induction ops generalizing st with
  | nil => rfl
  | cons p rest ih =>
    obtain ⟨a, b⟩ := p
    simp only [List.map_cons, List.mem_cons, not_or] at hk
    rw [applySets, ih (setLastGid st a b) hk.2, getLastGid_set_other st a k b hk.1]

/-! ## The claims -/

/-- C1: the Change Detector treats a fetched entry as new iff its
identifier is not equal to the stored last-seen value, an absent stored
value always counting as different.  With a clean environment and a
response carrying `ev`: the notification is attempted iff
`some ev.gid ≠ getLastGid st appId`; when new, the store is written
through `setLastGid` and afterwards holds `ev.gid`, which is also the
identifier sent; when not new, nothing is sent and the store is
unchanged. -/
theorem changeDetector_new_iff (st : Backend) (appId : String) (ev : SteamEvent)
    (hgid : ev.gid ≠ "") :
    ((processItem (cleanEnv ⟨1, [ev]⟩) st appId).2.attempted = true
        ↔ some ev.gid ≠ getLastGid st appId)
    ∧ (some ev.gid ≠ getLastGid st appId →
        (processItem (cleanEnv ⟨1, [ev]⟩) st appId).1 = setLastGid st appId ev.gid
        ∧ getLastGid (processItem (cleanEnv ⟨1, [ev]⟩) st appId).1 appId = some ev.gid
        ∧ (processItem (cleanEnv ⟨1, [ev]⟩) st appId).2.sent = some ev.gid)
    ∧ (some ev.gid = getLastGid st appId →
        (processItem (cleanEnv ⟨1, [ev]⟩) st appId).1 = st
        ∧ (processItem (cleanEnv ⟨1, [ev]⟩) st appId).2.attempted = false
        ∧ (processItem (cleanEnv ⟨1, [ev]⟩) st appId).2.sent = none) := by
  by_cases hnew : some ev.gid ≠ getLastGid st appId
  · rw [processItem_clean_new st appId ev hnew]
    exact ⟨by simpa using hnew,
      fun _ => ⟨rfl, getLastGid_set_self st appId ev.gid hgid, rfl⟩,
      fun hold => absurd hold hnew⟩
  · push_neg at hnew
    rw [processItem_clean_old st appId ev hnew]
    exact ⟨by simp [hnew], fun hn => absurd hnew hn, fun _ => ⟨rfl, rfl, rfl⟩⟩

/-- Witness for C1: the empty Redis store, item `"440"`, entry `"X"`. -/
theorem changeDetector_new_iff_witness :
    (processItem (cleanEnv ⟨1, [evX]⟩) (.redis []) "440").2.attempted = true
    ∧ getLastGid (processItem (cleanEnv ⟨1, [evX]⟩) (.redis []) "440").1 "440"
        = some "X" := by
  have h := changeDetector_new_iff (.redis []) "440" evX (by decide)
  exact ⟨h.1.mpr (by decide), by simpa [evX] using (h.2.1 (by decide)).2.1⟩

/-- C2: for an entry detected as new, the emitter is invoked first and
the identifier is persisted only after the emit call returns without
raising: when the emit raises, the store is unchanged and the failure is
logged; when nothing raises, the store is written; and in every
environment, a changed store implies the emitter was invoked and did not
raise. -/
theorem notifyBeforePersist (st : Backend) (appId : String) (ev : SteamEvent)
    (hnew : some ev.gid ≠ getLastGid st appId) :
    processItem ⟨.ok ⟨1, [ev]⟩, false, true, false⟩ st appId
        = (st, ⟨true, none, some appId⟩)
    ∧ processItem (cleanEnv ⟨1, [ev]⟩) st appId
        = (setLastGid st appId ev.gid, ⟨true, some ev.gid, none⟩)
    ∧ (∀ (env : ItemEnv) (st2 : Backend) (a : String),
        (processItem env st2 a).1 ≠ st2 →
        (processItem env st2 a).2.attempted = true ∧ env.emitThrows = false) := by
  refine ⟨by simp [processItem, hnew], processItem_clean_new st appId ev hnew, ?_⟩
  intro env st2 a hch
  obtain ⟨f, gT, eT, sT⟩ := env
  cases f with
  | error e => simp [processItem] at hch
  | ok data =>
    by_cases h1 : data.success = 1
    · cases he : data.events.head? with
      | none => simp [processItem, h1, he] at hch
      | some ev2 =>
        cases gT with
        | true => simp [processItem, h1, he] at hch
        | false =>
          by_cases h2 : some ev2.gid ≠ getLastGid st2 a
          · cases eT with
            | true => simp [processItem, h1, he, h2] at hch
            | false =>
              cases sT with
              | true => simp [processItem, h1, he, h2] at hch
              | false => simp [processItem, h1, he, h2]
          · simp [processItem, h1, he, h2] at hch
    · simp [processItem, h1] at hch

/-- Witness for C2: the empty Redis store, item `"440"`, entry `"X"`. -/
theorem notifyBeforePersist_witness :
    processItem ⟨.ok ⟨1, [evX]⟩, false, true, false⟩ (.redis []) "440"
        = (.redis [], ⟨true, none, some "440"⟩)
    ∧ processItem (cleanEnv ⟨1, [evX]⟩) (.redis []) "440"
        = (setLastGid (.redis []) "440" evX.gid, ⟨true, some evX.gid, none⟩) := by
  have h := notifyBeforePersist (.redis []) "440" evX (by decide)
  exact ⟨h.1, h.2.1⟩

/-- C7: a response whose success flag is not `1` or whose entry list is
empty is "no new data", not an error: the store is unchanged, nothing is
attempted or sent, nothing is logged — whatever the rest of the
environment would have done, so the store is neither read nor written —
and the cycle continues through the remaining items exactly as it would
have without this item's step. -/
theorem noDataSkip (env : ItemEnv) (st : Backend) (appId : String)
    (data : SteamApiResponse) (hfetch : env.fetch = .ok data)
    (h : data.success ≠ 1 ∨ data.events = []) :
    processItem env st appId = (st, ⟨false, none, none⟩)
    ∧ (∀ (envs : String → ItemEnv) (rest : List String), envs appId = env →
        checkUpdates envs st (appId :: rest)
          = ((checkUpdates envs st rest).1,
             (appId, ⟨false, none, none⟩) :: (checkUpdates envs st rest).2)) := by
  have hstep : processItem env st appId = (st, ⟨false, none, none⟩) := by
    obtain ⟨f, gT, eT, sT⟩ := env
    simp only [] at hfetch
    subst hfetch
    rcases h with h1 | h2
    · simp [processItem, h1]
    · by_cases hs : data.success = 1
      · simp [processItem, hs, h2]
      · simp [processItem, hs]
  exact ⟨hstep, fun envs rest henvs => by simp [checkUpdates, henvs, hstep]⟩

/-- Witness for C7: a `success = 0` response and an empty-events
response, each leaving the store untouched. -/
theorem noDataSkip_witness :
    processItem (cleanEnv ⟨0, [evX]⟩) (.redis []) "440" = (.redis [], ⟨false, none, none⟩)
    ∧ processItem (cleanEnv ⟨1, []⟩) (.redis []) "440" = (.redis [], ⟨false, none, none⟩) :=
  ⟨(noDataSkip (cleanEnv ⟨0, [evX]⟩) (.redis []) "440" ⟨0, [evX]⟩ rfl
      (Or.inl (by decide))).1,
   (noDataSkip (cleanEnv ⟨1, []⟩) (.redis []) "440" ⟨1, []⟩ rfl (Or.inr rfl)).1⟩

/-- C10: on the local-file backend a stored empty-string identifier is
indistinguishable from a never-set key: `getLastGid` yields `none`; hence
an entry whose identifier is the empty string is detected as new, and
even after its identifier is persisted the next clean cycle detects it as
new again. -/
theorem emptyGid_indistinguishable (m : List (String × String)) (k : String)
    (h : m.lookup k = some "") :
    getLastGid (.file (.parsed m)) k = none
    ∧ (processItem (cleanEnv ⟨1, [evEmpty]⟩) (.file (.parsed m)) k).2.attempted = true
    ∧ getLastGid (processItem (cleanEnv ⟨1, [evEmpty]⟩) (.file (.parsed m)) k).1 k = none
    ∧ (processItem (cleanEnv ⟨1, [evEmpty]⟩)
        (processItem (cleanEnv ⟨1, [evEmpty]⟩) (.file (.parsed m)) k).1 k).2.attempted
          = true := by
  have hg : evEmpty.gid = "" := rfl
  have hget : getLastGid (.file (.parsed m)) k = none := by simp [getLastGid, h]
  have hnew : some evEmpty.gid ≠ getLastGid (.file (.parsed m)) k := by simp [hget]
  have hstep := processItem_clean_new (.file (.parsed m)) k evEmpty hnew
  have hget2 : getLastGid (processItem (cleanEnv ⟨1, [evEmpty]⟩)
      (.file (.parsed m)) k).1 k = none := by
    rw [hstep]
    simp [setLastGid, getLastGid, docData, hg, lookup_setKV_self]
  have hnew2 : some evEmpty.gid ≠ getLastGid (processItem (cleanEnv ⟨1, [evEmpty]⟩)
      (.file (.parsed m)) k).1 k := by simp [hget2]
  have hstep2 := processItem_clean_new _ k evEmpty hnew2
  exact ⟨hget, by rw [hstep], hget2, by rw [hstep2]⟩

/-- Witness for C10: the document maps `"440"` to the empty string. -/
theorem emptyGid_indistinguishable_witness :
    getLastGid (.file (.parsed [("440", "")])) "440" = none
    ∧ (processItem (cleanEnv ⟨1, [evEmpty]⟩)
        (.file (.parsed [("440", "")])) "440").2.attempted = true :=
  ⟨(emptyGid_indistinguishable [("440", "")] "440" (by decide)).1,
   (emptyGid_indistinguishable [("440", "")] "440" (by decide)).2.1⟩

/-- C4: a raised error while processing one item is caught at the
per-item boundary: the catch logs that item's identifier, the store is
left as it was, and the whole cycle's outcome list is the outcomes of the
items before it, then the failed item's outcome, then the outcomes of the
items after it computed exactly as they would be from the store the
failed item left behind — one item's failure never aborts the cycle. -/
theorem perItemIsolation (envs : String → ItemEnv) (xs ys : List String)
    (bad : String) (st st1 : Backend) (out1 : List (String × Outcome))
    (h1 : checkUpdates envs st xs = (st1, out1))
    (hraise : (processItem (envs bad) st1 bad).2.logged ≠ none) :
    (processItem (envs bad) st1 bad).2.logged = some bad
    ∧ (processItem (envs bad) st1 bad).1 = st1
    ∧ (checkUpdates envs st (xs ++ bad :: ys)).2
        = out1 ++ (bad, (processItem (envs bad) st1 bad).2)
            :: (checkUpdates envs st1 ys).2
    ∧ (checkUpdates envs st (xs ++ bad :: ys)).1 = (checkUpdates envs st1 ys).1 := by
  obtain ⟨hlog, hst⟩ := processItem_logged (envs bad) st1 bad hraise
  have key : checkUpdates envs st (xs ++ bad :: ys)
      = ((checkUpdates envs st1 ys).1,
         out1 ++ (bad, (processItem (envs bad) st1 bad).2)
            :: (checkUpdates envs st1 ys).2) := by
    rw [checkUpdates_append envs st xs (bad :: ys), h1]
    simp [checkUpdates, hst]
  exact ⟨hlog, hst, by rw [key], by rw [key]⟩

/-- Witness for C4: the item `"bad"` raises on fetch between two clean
items. -/
theorem perItemIsolation_witness :
    (processItem (envsBad "bad") (.redis [("steam_watcher:a1", "X")]) "bad").2.logged
        = some "bad"
    ∧ (processItem (envsBad "bad") (.redis [("steam_watcher:a1", "X")]) "bad").1
        = .redis [("steam_watcher:a1", "X")]
    ∧ (checkUpdates envsBad (.redis []) (["a1"] ++ "bad" :: ["a2"])).2
        = [("a1", ⟨true, some "X", none⟩)]
            ++ ("bad", (processItem (envsBad "bad")
                  (.redis [("steam_watcher:a1", "X")]) "bad").2)
              :: (checkUpdates envsBad (.redis [("steam_watcher:a1", "X")]) ["a2"]).2
    ∧ (checkUpdates envsBad (.redis []) (["a1"] ++ "bad" :: ["a2"])).1
        = (checkUpdates envsBad (.redis [("steam_watcher:a1", "X")]) ["a2"]).1 :=
  perItemIsolation envsBad ["a1"] ["a2"] "bad" (.redis [])
    (.redis [("steam_watcher:a1", "X")]) [("a1", ⟨true, some "X", none⟩)]
    (by decide) (by decide)

/-- C5 counterexample: the claim quantifies over every identifier `v`,
but on the local-file backend `set(k, "")` followed by `get(k)` yields
absent, not the empty string that was stored. -/
theorem stateStore_roundtrip_cx :
    getLastGid (setLastGid (.file .missing) "440" "") "440" = none
    ∧ getLastGid (setLastGid (.file .missing) "440" "") "440" ≠ some "" := by
  decide

/-- C5 amended: a key never previously set reads back absent on both
backends (whatever other keys were set before); `set(k, v)` followed by
`get(k)` returns `v` on both backends — the local-file document persists,
so a fresh reader of the same path sees it — for every non-empty `v`; on
the networked backend the round trip holds for every `v`, the empty
string included. -/
theorem stateStore_get_set (ops : List (String × String)) (k v : String)
    (st : Backend) (hk : k ∉ ops.map Prod.fst) (hv : v ≠ "") :
    getLastGid (applySets (.redis []) ops) k = none
    ∧ getLastGid (applySets (.file .missing) ops) k = none
    ∧ getLastGid (setLastGid st k v) k = some v
    ∧ (∀ (m : List (String × String)) (w : String),
        getLastGid (setLastGid (.redis m) k w) k = some w) := by
  refine ⟨?_, ?_, getLastGid_set_self st k v hv,
    fun m w => getLastGid_set_self_redis m k w⟩
  · rw [applySets_other _ _ _ hk]
    rfl
  · rw [applySets_other _ _ _ hk]
    rfl

/-- Witness for C5: the key `"440"` unset after a write to `"730"`, and
the round trip of `"X"` on the file backend. -/
theorem stateStore_get_set_witness :
    getLastGid (applySets (.redis []) [("730", "g")]) "440" = none
    ∧ getLastGid (applySets (.file .missing) [("730", "g")]) "440" = none
    ∧ getLastGid (setLastGid (.file .missing) "440" "X") "440" = some "X" := by
  have h := stateStore_get_set [("730", "g")] "440" "X" (.file .missing)
    (by decide) (by decide)
  exact ⟨h.1, h.2.1, h.2.2.1⟩

/-- C6: on the local-file backend a missing or unparsable document is an
empty mapping and never fatal: `get` yields absent, `set` rewrites the
document to hold exactly the new key, and on a parsable document a `set`
preserves every other stored key's reading. -/
theorem fileBackend_missing_corrupt (k v k' : String)
    (m : List (String × String)) (h : k' ≠ k) :
    getLastGid (.file .missing) k = none
    ∧ getLastGid (.file .corrupt) k = none
    ∧ setLastGid (.file .missing) k v = .file (.parsed [(k, v)])
    ∧ setLastGid (.file .corrupt) k v = .file (.parsed [(k, v)])
    ∧ getLastGid (setLastGid (.file (.parsed m)) k v) k'
        = getLastGid (.file (.parsed m)) k' :=
  ⟨rfl, rfl, rfl, rfl, getLastGid_set_other _ _ _ _ h⟩

/-- Witness for C6: keys `"440"` and `"730"` on a one-entry document. -/
theorem fileBackend_missing_corrupt_witness :
    getLastGid (.file .missing) "440" = none
    ∧ setLastGid (.file .corrupt) "440" "g" = .file (.parsed [("440", "g")])
    ∧ getLastGid (setLastGid (.file (.parsed [("730", "w")])) "440" "g") "730"
        = getLastGid (.file (.parsed [("730", "w")])) "730" := by
  have h := fileBackend_missing_corrupt "440" "g" "730" [("730", "w")] (by decide)
  exact ⟨h.1, h.2.2.2.1, h.2.2.2.2⟩

/-- C8 counterexample: with `localized_title_image = [""]` and a
non-empty capsule list the code builds the URL from the capsule list
(`titleImages[0]` is falsy), while the claim's title-precedence over
non-empty lists would build it from `""`; and with an empty-string
owning-group identifier the code attaches no image while the claim, which
only asks for the identifier to be present, would.  `specClaimedImage`
states the claim exactly as worded. -/
theorem imageResolution_cx :
    resolveImage evTitleBlank
        = some "https://clan.fastly.steamstatic.com/images/123/cap.png"
    ∧ specClaimedImage evTitleBlank
        = some "https://clan.fastly.steamstatic.com/images/123/"
    ∧ resolveImage evTitleBlank ≠ specClaimedImage evTitleBlank
    ∧ resolveImage evClanBlank = none
    ∧ specClaimedImage evClanBlank
        = some "https://clan.fastly.steamstatic.com/images//t.png"
    ∧ resolveImage evClanBlank ≠ specClaimedImage evClanBlank := by
  decide

/-- C8 amended: an image is attached iff the owning-group identifier is
present and non-empty, the metadata blob is present and parses, and the
first element of the title-image list is a non-empty string — or, failing
that, the first element of the capsule-image list is a non-empty string —
the title list taking precedence; the URL combines the fixed CDN
template, the group identifier and the chosen element; absence or parse
failure at any step yields no image. -/
theorem imageResolution (ev : SteamEvent) :
    (ev.announcement_body.clanid = none → resolveImage ev = none)
    ∧ (ev.announcement_body.clanid = some "" → resolveImage ev = none)
    ∧ (ev.jsondata = none → resolveImage ev = none)
    ∧ (ev.jsondata = some .corrupt → resolveImage ev = none)
    ∧ (∀ (clanId : String) (t c : Option (List String)) (f : String)
          (fs : List String),
        ev.announcement_body.clanid = some clanId → clanId ≠ "" →
        ev.jsondata = some (.parsed t c) → t = some (f :: fs) → f ≠ "" →
        resolveImage ev = some (clanImageUrl clanId f))
    ∧ (∀ (clanId : String) (t c : Option (List String)) (f : String)
          (fs : List String),
        ev.announcement_body.clanid = some clanId → clanId ≠ "" →
        ev.jsondata = some (.parsed t c) → imageFileOf t = none →
        c = some (f :: fs) → f ≠ "" →
        resolveImage ev = some (clanImageUrl clanId f))
    ∧ (∀ (clanId : String) (t c : Option (List String)),
        ev.announcement_body.clanid = some clanId →
        ev.jsondata = some (.parsed t c) → imageFileOf t = none →
        imageFileOf c = none → resolveImage ev = none) := by
  refine ⟨fun hc => by simp [resolveImage, hc], fun hc => by simp [resolveImage, hc],
    ?_, ?_, ?_, ?_, ?_⟩
  · intro hj
    unfold resolveImage
    cases hcl : ev.announcement_body.clanid with
    | none => rfl
    | some clanId => simp [hj]
  · intro hj
    unfold resolveImage
    cases hcl : ev.announcement_body.clanid with
    | none => rfl
    | some clanId => simp [hj]
  · intro clanId t c f fs hcl hne hj ht hf
    subst ht
    simp [resolveImage, hcl, hne, hj, imageFileOf, hf]
  · intro clanId t c f fs hcl hne hj ht hc hf
    subst hc
    have hcap : imageFileOf (some (f :: fs)) = some f := by simp [imageFileOf, hf]
    simp [resolveImage, hcl, hne, hj, ht, hcap]
  · intro clanId t c hcl hj ht hc
    by_cases hne : clanId = ""
    · subst hne
      simp [resolveImage, hcl]
    · simp [resolveImage, hcl, hne, hj, ht, hc]

/-- Witness for C8: both lists present and truthy → the title list wins;
only the capsule list present → it is used. -/
theorem imageResolution_witness :
    resolveImage evBothImages = some (clanImageUrl "123" "t.png")
    ∧ resolveImage evCapsuleOnly = some (clanImageUrl "123" "cap.png") :=
  ⟨(imageResolution evBothImages).2.2.2.2.1 "123" (some ["t.png"])
      (some ["cap.png"]) "t.png" [] rfl (by decide) rfl rfl (by decide),
   (imageResolution evCapsuleOnly).2.2.2.2.2.1 "123" none (some ["cap.png"])
      "cap.png" [] rfl (by decide) rfl rfl rfl (by decide)⟩

/-- C9: the transcoder maps `"[list]\n[*]one\n[*]two\n[/list]"` to
exactly `"• one\n• two"` — the container tags are removed, each item tag
becomes the bullet prefix, and the result is trimmed. -/
theorem listExample_transcoding :
    formatSteamText ("[list]\n[*]one\n[*]two\n[/list]".toList)
      = "• one\n• two".toList := by
  decide

/-- C3: whenever the pipeline's result exceeds 3500 characters, the
output is exactly its first 3500 characters followed by the literal
continuation suffix (so the output exceeds 3500 by the suffix length),
counting characters; in particular 4000 letters `a` become exactly 3500
letters `a` followed by the suffix. -/
theorem formatSteamText_truncation (t : List Char)
    (h : 3500 < (fmtPipeline t).length) :
    formatSteamText t = (fmtPipeline t).take 3500 ++ STEAM_SUFFIX
    ∧ (formatSteamText t).length = 3500 + STEAM_SUFFIX.length
    ∧ formatSteamText (List.replicate 4000 'a')
        = List.replicate 3500 'a' ++ STEAM_SUFFIX := by
  have hmain : formatSteamText t = (fmtPipeline t).take 3500 ++ STEAM_SUFFIX := by
    simp [formatSteamText, h]
  have hrep : formatSteamText (List.replicate 4000 'a')
      = List.replicate 3500 'a' ++ STEAM_SUFFIX := by
    simp only [formatSteamText, fmtPipeline_replicate_a, List.length_replicate]
    rw [if_pos (by norm_num), List.take_replicate]
    norm_num
  refine ⟨hmain, ?_, hrep⟩
  rw [hmain]
  simp [List.length_take, Nat.min_eq_left (Nat.le_of_lt h)]

/-- Witness for C3: the 4000-letter input exceeds the cap. -/
theorem formatSteamText_truncation_witness :
    3500 < (fmtPipeline (List.replicate 4000 'a')).length
    ∧ formatSteamText (List.replicate 4000 'a')
        = (fmtPipeline (List.replicate 4000 'a')).take 3500 ++ STEAM_SUFFIX := by
  have hl : 3500 < (fmtPipeline (List.replicate 4000 'a')).length := by
    rw [fmtPipeline_replicate_a, List.length_replicate]
    norm_num
  exact ⟨hl, (formatSteamText_truncation _ hl).1⟩
